import Mathlib

/-!
Verification of the tray-menu / window-lifecycle shell in
`src/pester/src-tauri/src/lib.rs`.

The Rust code is shallowly embedded: strings are lists of characters with
byte-level operations made explicit through `Char.utf8Size`; the fallible
tauri calls (menu construction, append, tray lookup, `set_menu`) are driven
by an explicit failure oracle; the tray-menu, window-event and tray-icon
handlers become pure dispatch functions over an explicit window state; the
one external effect of `update_tray_menu` (the final `set_menu`) is recorded
as an effect value.
-/

/-- Strings are modelled as lists of Unicode characters (Rust `String` and
`str` viewed as sequences of `char`); byte-indexed operations are made
explicit below. -/
abbrev Str := List Char

/-- Rust `str::starts_with`: `startsWith p s` is true iff `p` is a leading
run of `s`. -/
def startsWith : Str → Str → Bool
  | [], _ => true
  | _ :: _, [] => false
  | p :: ps, c :: cs => p == c && startsWith ps cs

/-- Rust `str::strip_prefix`: remove `p` from the front of `s`, or `none`
when `s` does not start with `p`. -/
def stripPref : Str → Str → Option Str
  | [], s => some s
  | _ :: _, [] => none
  | p :: ps, c :: cs => if p == c then stripPref ps cs else none

/-- Rust `str::len`: the UTF-8 byte length of a string. -/
def utf8Len (s : Str) : Nat := (s.map Char.utf8Size).sum

/-- Rust byte slicing `&s[..n]`: the characters occupying the first `n`
bytes of the UTF-8 encoding of `s`; `none` when `n` is not a character
boundary or exceeds the string, where Rust panics. -/
def byteSlice : Str → Nat → Option Str
  | _, 0 => some []
  | [], _ + 1 => none
  | c :: cs, n + 1 =>
    if c.utf8Size ≤ n + 1 then (byteSlice cs (n + 1 - c.utf8Size)).map (c :: ·) else none

/-- The contact label computation of `update_tray_menu` (lib.rs lines
36-40): when `user.len() > 12` the label is `&user[..12]` followed by the
ellipsis character, otherwise the identifier itself. Both the length test
and the slice are byte-based; `none` models the panic of `&user[..12]` at a
non-boundary index. -/
def chatLabel (user : Str) : Option Str :=
  if utf8Len user > 12 then (byteSlice user 12).map (· ++ ['…']) else some user

/-- A tray menu element: either `MenuItem::with_id(app, id, label, true,
None)` or `PredefinedMenuItem::separator(app)`. -/
inductive MenuEntry where
  | item (id : Str) (label : Str)
  | separator
  deriving DecidableEq, Repr

/-- Failure oracle for the fallible tauri calls made by `update_tray_menu`.
Each field gives the error message (already through `e.to_string()`) a step
fails with, or `none` when that step succeeds: `itemErr` is indexed by the
action id of the `MenuItem` being constructed, `sepErr` by the ordinal of
the separator being constructed, `appendErr` by the ordinal of the
`menu.append` call. -/
structure TrayEnv where
  trayFound : Bool
  menuNewErr : Option Str
  itemErr : Str → Option Str
  sepErr : Nat → Option Str
  appendErr : Nat → Option Str
  setMenuErr : Option Str

/-- The observable effect `update_tray_menu` can have on the tray: the
single `tray.set_menu(Some(menu))` call at its end. -/
inductive TrayEffect where
  | setMenu (m : List MenuEntry)
  deriving DecidableEq, Repr

/-- Interpretation of a list of tray effects on the currently installed
menu. -/
def applyEffects (effs : List TrayEffect) (tray : List MenuEntry) : List MenuEntry :=
  match effs with
  | [] => tray
  | .setMenu m :: rest => applyEffects rest m

/-- Sequencing of one fallible step, as the Rust `map_err(...)?` does:
propagate the step failure as an error, otherwise continue. -/
def orFail {α : Type} (o : Option Str) (k : Option (Except Str α)) :
    Option (Except Str α) :=
  match o with
  | some e => some (.error e)
  | none => k

/-- The contact loop of `update_tray_menu` (lib.rs lines 35-45): for each
user compute the label, construct the `chat_<user>` item, append it. `acc`
is the menu built so far and `appIdx` the ordinal of the next append;
`none` models the label-slice panic. -/
def appendUsers (env : TrayEnv) : List Str → List MenuEntry → Nat →
    Option (Except Str (List MenuEntry × Nat))
  | [], acc, appIdx => some (.ok (acc, appIdx))
  | user :: rest, acc, appIdx =>
    match chatLabel user with
    | none => none
    | some label =>
      orFail (env.itemErr ("chat_".data ++ user)) <|
      orFail (env.appendErr appIdx) <|
      appendUsers env rest (acc ++ [.item ("chat_".data ++ user) label]) (appIdx + 1)

/-- The common tail of the construction (lib.rs lines 48-53): the third
separator, its append, the Quit item and its append. -/
def finishMenu (env : TrayEnv) (menu : List MenuEntry) (sepIdx appIdx : Nat) :
    Option (Except Str (List MenuEntry)) :=
  orFail (env.sepErr sepIdx) <|
  orFail (env.appendErr appIdx) <|
  orFail (env.itemErr "quit".data) <|
  orFail (env.appendErr (appIdx + 1)) <|
  some (.ok (menu ++ [.separator, .item "quit".data "Quit".data]))

/-- The conditional contacts section (lib.rs lines 31-46) followed by the
common tail: an empty contact list skips straight to the tail, a non-empty
one first constructs and appends a separator and then the contact items. -/
def buildTail (env : TrayEnv) (recent_users : List Str) (base : List MenuEntry) :
    Option (Except Str (List MenuEntry)) :=
  match recent_users with
  | [] => finishMenu env base 1 3
  | _ :: _ =>
    orFail (env.sepErr 1) <|
    orFail (env.appendErr 3) <|
    match appendUsers env recent_users (base ++ [.separator]) 4 with
    | none => none
    | some (.error e) => some (.error e)
    | some (.ok (m, appIdx)) => finishMenu env m 2 appIdx

/-- The menu-construction phase of `update_tray_menu` (lib.rs lines 18-53):
`Menu::new`, the Open item and its append, the first separator and its
append, the New Contact item and its append, then the contacts section and
the tail. -/
def buildMenu (env : TrayEnv) (recent_users : List Str) :
    Option (Except Str (List MenuEntry)) :=
  orFail env.menuNewErr <|
  orFail (env.itemErr "open".data) <|
  orFail (env.appendErr 0) <|
  orFail (env.sepErr 0) <|
  orFail (env.appendErr 1) <|
  orFail (env.itemErr "new_contact".data) <|
  orFail (env.appendErr 2) <|
  buildTail env recent_users
    [.item "open".data "Open Pester".data, .separator,
     .item "new_contact".data "New Contact…".data]

/-- The `update_tray_menu` tauri command (lib.rs lines 9-58): look the tray
up by its id ("Tray not found" when absent), build the menu, and only then
install it with `tray.set_menu`. The outer `none` models a label-slice
panic; otherwise the pair holds the command's `Result` and the effects
applied to the tray — empty on every error path, so the previously
installed menu persists unless the final `set_menu` ran. -/
def update_tray_menu (env : TrayEnv) (recent_users : List Str) :
    Option (Except Str Unit × List TrayEffect) :=
  if env.trayFound then
    match buildMenu env recent_users with
    | none => none
    | some (.error e) => some (.error e, [])
    | some (.ok m) =>
      match env.setMenuErr with
      | some e => some (.error e, [])
      | none => some (.ok (), [.setMenu m])
  else some (.error "Tray not found".data, [])

/-- The oracle under which every tauri call succeeds. -/
def okEnv : TrayEnv where
  trayFound := true
  menuNewErr := none
  itemErr := fun _ => none
  sepErr := fun _ => none
  appendErr := fun _ => none
  setMenuErr := none

/-- An oracle whose only failure is constructing the Open item, used to
exhibit a failing rebuild. -/
def failEnv : TrayEnv where
  trayFound := true
  menuNewErr := none
  itemErr := fun id => if id = "open".data then some "boom".data else none
  sepErr := fun _ => none
  appendErr := fun _ => none
  setMenuErr := none

/-- `e` is an error message the environment can produce: the literal
"Tray not found" of the tray lookup, or a message supplied by one of the
fallible steps. -/
def envError (env : TrayEnv) (e : Str) : Prop :=
  e = "Tray not found".data ∨ env.menuNewErr = some e ∨
  (∃ id, env.itemErr id = some e) ∨ (∃ k, env.sepErr k = some e) ∨
  (∃ k, env.appendErr k = some e) ∨ env.setMenuErr = some e

/-- The contacts section entries: one `chat_<user>` item per user, in input
order, labelled by `chatLabel`; `none` when some label computation
panics. -/
def contactEntries : List Str → Option (List MenuEntry)
  | [] => some []
  | user :: rest =>
    match chatLabel user, contactEntries rest with
    | some label, some es => some (.item ("chat_".data ++ user) label :: es)
    | _, _ => none

/-- The full menu `update_tray_menu` installs when construction succeeds:
Open, separator, New Contact, then — only for a non-empty contact list — a
separator and the contact entries, then a separator and Quit. -/
def menuShape (users : List Str) (contacts : List MenuEntry) : List MenuEntry :=
  [.item "open".data "Open Pester".data, .separator,
   .item "new_contact".data "New Contact…".data] ++
  (if users.isEmpty then [] else .separator :: contacts) ++
  [.separator, .item "quit".data "Quit".data]

/-- The initial tray menu built inline in `run`'s setup (lib.rs lines
158-167): `Menu::with_items(app, [open_item, sep1, new_contact_item, sep2,
quit_item])` with the same ids and labels as the rebuilt menu. -/
def initialTrayMenu : List MenuEntry :=
  [.item "open".data "Open Pester".data, .separator,
   .item "new_contact".data "New Contact…".data, .separator,
   .item "quit".data "Quit".data]

/-- Transient OS-level state of the main window. -/
structure WindowState where
  visible : Bool
  minimized : Bool
  focused : Bool
  destroyed : Bool
  deriving DecidableEq, Repr

/-- Result of one tray-menu dispatch: the process exit requested (if any),
the emitted (event, payload) pairs, and the window state afterwards. -/
structure DispatchOut where
  exitCode : Option Int
  events : List (Str × Str)
  window : WindowState
  deriving DecidableEq, Repr

/-- The best-effort `unminimize(); show(); set_focus()` sequence run inside
`if let Some(w) = app_handle.get_webview_window("main")`. -/
def revealFocus (windowExists : Bool) (w : WindowState) : WindowState :=
  if windowExists then { w with minimized := false, visible := true, focused := true } else w

/-- The tray menu event handler (lib.rs lines 172-204) as a pure dispatcher
over the selected action id: literal arms for "open", "quit" and
"new_contact", a guarded arm for ids starting with "chat_" (whose payload
uses `strip_prefix("chat_").unwrap_or("")`), and a catch-all that does
nothing. -/
def on_menu_event (windowExists : Bool) (w : WindowState) (id : Str) : DispatchOut :=
  if id = "open".data then
    { exitCode := none, events := [], window := revealFocus windowExists w }
  else if id = "quit".data then
    { exitCode := some 0, events := [], window := w }
  else if id = "new_contact".data then
    { exitCode := none, events := [("tray-action".data, "new_contact".data)],
      window := revealFocus windowExists w }
  else if startsWith "chat_".data id = true then
    { exitCode := none,
      events := [("tray-action".data,
        "chat:".data ++ (stripPref "chat_".data id).getD [])],
      window := revealFocus windowExists w }
  else
    { exitCode := none, events := [], window := w }

/-- Native window events relevant to the installed handler. -/
inductive WindowEvent where
  | closeRequested
  | other
  deriving DecidableEq, Repr

/-- Output of the window-event handler: whether `api.prevent_close()` was
called, and the window state after the handler ran. -/
structure WindowEventOut where
  preventClose : Bool
  window : WindowState
  deriving DecidableEq, Repr

/-- The `on_window_event` closure (lib.rs lines 145-152): a close request
is answered by `api.prevent_close()` and `window_clone.hide()`; every other
event is ignored. -/
def on_window_event (w : WindowState) : WindowEvent → WindowEventOut
  | .closeRequested => { preventClose := true, window := { w with visible := false } }
  | .other => { preventClose := false, window := w }

/-- Host semantics of delivering one close request: the installed handler
runs; unless it called `prevent_close`, the default action destroys the
window and terminates. The Boolean records whether that default
close/terminate action ran. -/
def closeRequest (w : WindowState) : WindowState × Bool :=
  let o := on_window_event w .closeRequested
  if o.preventClose then (o.window, false)
  else ({ o.window with visible := false, destroyed := true }, true)

/-- The window state after `n` successive close requests. -/
def closeRequests : Nat → WindowState → WindowState
  | 0, w => w
  | n + 1, w => closeRequests n (closeRequest w).1

/-- Native tray icon events: a click, or anything else. -/
inductive TrayEvent where
  | click
  | other
  deriving DecidableEq, Repr

/-- The `on_tray_icon_event` closure (lib.rs lines 207-213): on a
`TrayIconEvent::Click` it calls `w.show()` on the main window when that
window exists; nothing else happens. -/
def on_tray_icon_event (windowExists : Bool) (w : WindowState) : TrayEvent → WindowState
  | .click => if windowExists then { w with visible := true } else w
  | .other => w

/-- Rust `u32 as i32`: reinterpret the low 32 bits as a two's-complement
signed value. -/
def toI32 (n : Nat) : Int :=
  if n % 2 ^ 32 < 2 ^ 31 then ((n % 2 ^ 32 : Nat) : Int)
  else ((n % 2 ^ 32 : Nat) : Int) - 2 ^ 32

/-- Reduction of an integer into the `i32` range, as wrapping 32-bit
arithmetic does. -/
def wrap32 (z : Int) : Int := (z + 2 ^ 31) % 2 ^ 32 - 2 ^ 31

/-- The Windows branch of `run`'s setup (lib.rs lines 115-127): the
physical position `(monitor.width as i32 - window.width as i32 - 10,
monitor.height as i32 - window.height as i32 - 50)`, with the casts and the
subtraction taken in (wrapping) 32-bit signed arithmetic. -/
def windowsPosition (monW monH winW winH : Nat) : Int × Int :=
  (wrap32 (toI32 monW - toI32 winW - 10), wrap32 (toI32 monH - toI32 winH - 50))

/-- A concrete contact list used as a witness input. -/
def usersW : List Str := ["alice".data, "a-very-long-user-name".data]

/-- The contact entries `update_tray_menu` builds for `usersW`. -/
def contactsW : List MenuEntry :=
  [.item "chat_alice".data "alice".data,
   .item "chat_a-very-long-user-name".data "a-very-long-…".data]

/-- A concrete window state: visible, unminimized, unfocused, alive. -/
def w0 : WindowState :=
  { visible := false, minimized := false, focused := false, destroyed := false }

/-! ## General lemmas about the string model -/

/-- Stripping a run that was just prepended yields the original remainder. -/
theorem stripPref_self_append (p u : Str) : stripPref p (p ++ u) = some u := by
  induction p with
  | nil => rfl
  | cons a ps ih => simp [stripPref, ih]

/-- A string always starts with a run that was just prepended to it. -/
theorem startsWith_self_append (p u : Str) : startsWith p (p ++ u) = true := by
  induction p with
  | nil => rfl
  | cons a ps ih => simp [startsWith, ih]

/-- When a string starts with `p`, stripping `p` succeeds and returns
exactly the remainder. -/
theorem stripPref_of_startsWith (p s : Str) (h : startsWith p s = true) :
    ∃ u, stripPref p s = some u ∧ s = p ++ u := by
  induction p generalizing s with
  | nil => exact ⟨s, rfl, rfl⟩
  | cons a ps ih =>
    cases s with
    | nil => simp [startsWith] at h
    | cons b bs =>
      simp only [startsWith, Bool.and_eq_true, beq_iff_eq] at h
      obtain ⟨hab, hrest⟩ := h
      subst hab
      obtain ⟨u, h1, h2⟩ := ih bs hrest
      exact ⟨u, by simp [stripPref, h1], by simp [h2]⟩

/-- Two character lists with different heads are different, whatever
follows. -/
theorem append_ne_of_head_ne {a b : Char} (h : a ≠ b) (ps v bs : Str) :
    (a :: ps) ++ v ≠ b :: bs := by
  intro he
  rw [List.cons_append] at he
  exact h (by injection he)

/-- Evaluation of the menu-event dispatcher on an action id of the form
`chat_<v>`: it falls through the three literal arms into the guarded arm
and emits exactly one "tray-action" event with payload `chat:<v>`. -/
theorem on_menu_event_chat_append (wE : Bool) (w : WindowState) (v : Str) :
    on_menu_event wE w ("chat_".data ++ v) =
      { exitCode := none, events := [("tray-action".data, "chat:".data ++ v)],
        window := revealFocus wE w } := by
  unfold on_menu_event
  rw [if_neg (append_ne_of_head_ne (show ('c' : Char) ≠ 'o' by decide) _ _ _),
    if_neg (append_ne_of_head_ne (show ('c' : Char) ≠ 'q' by decide) _ _ _),
    if_neg (append_ne_of_head_ne (show ('c' : Char) ≠ 'n' by decide) _ _ _),
    if_pos (startsWith_self_append "chat_".data v), stripPref_self_append]
  rfl

/-! ## Truncation (C2) -/

/-- C2: the claimed character-based truncation rule fails on the code,
whose `user.len()` test and `&user[..12]` slice count BYTES. The 8-character
identifier "αααααααα" occupies 16 UTF-8 bytes, so instead of appearing
verbatim it is truncated to its first 12 bytes (6 characters) plus an
ellipsis; the 12-character identifier "aaaaaaaaaaa€" occupies 14 bytes and
byte index 12 falls inside the final character, so the slice panics
(modelled as `none`) instead of showing the identifier verbatim. -/
theorem chatLabel_byte_truncation_bug :
    ("αααααααα".data.length ≤ 12 ∧
      chatLabel "αααααααα".data = some "αααααα…".data ∧
      "αααααα…".data ≠ "αααααααα".data) ∧
    ("aaaaaaaaaaa€".data.length ≤ 12 ∧ chatLabel "aaaaaaaaaaa€".data = none) := by
  decide

/-! ## Action-id round trip (C3) and the strip fallback (C9) -/

/-- C3: for every contact identifier `u` — including identifiers containing
"chat_" as a substring — dispatching the action id built by prefixing `u`
with "chat_" emits exactly one "tray-action" event whose payload is "chat:"
followed by `u`; stripping the tag recovers `u` exactly; and in particular
the entry built for "alice" emits exactly one event with payload
"chat:alice". -/
theorem chat_action_roundtrip (u : Str) (wE : Bool) (w : WindowState) :
    (on_menu_event wE w ("chat_".data ++ u)).events =
      [("tray-action".data, "chat:".data ++ u)] ∧
    stripPref "chat_".data ("chat_".data ++ u) = some u ∧
    (on_menu_event wE w ("chat_".data ++ "alice".data)).events =
      [("tray-action".data, "chat:alice".data)] := by
  refine ⟨?_, stripPref_self_append _ _, ?_⟩
  · rw [on_menu_event_chat_append]
  · rw [on_menu_event_chat_append]
    rfl

/-- C9: in the guarded `chat_` arm, the `unwrap_or("")` fallback is
unreachable: whenever the guard `id.starts_with("chat_")` holds,
`strip_prefix("chat_")` returns `some`, the id decomposes as "chat_"
followed by the recovered identifier, and the emitted payload is built from
that identifier, never from the fallback. -/
theorem chat_strip_fallback_unreachable (id : Str)
    (h : startsWith "chat_".data id = true) :
    ∃ u, stripPref "chat_".data id = some u ∧ id = "chat_".data ++ u ∧
      ∀ wE w, (on_menu_event wE w id).events =
        [("tray-action".data, "chat:".data ++ u)] := by
  obtain ⟨u, h1, h2⟩ := stripPref_of_startsWith "chat_".data id h
  refine ⟨u, h1, h2, fun wE w => ?_⟩
  rw [h2, on_menu_event_chat_append]

/-- Witness for C9 at the concrete action id "chat_alice". -/
theorem chat_strip_fallback_unreachable_witness :
    startsWith "chat_".data "chat_alice".data = true ∧
    ∃ u, stripPref "chat_".data "chat_alice".data = some u ∧
      "chat_alice".data = "chat_".data ++ u ∧
      ∀ wE w, (on_menu_event wE w "chat_alice".data).events =
        [("tray-action".data, "chat:".data ++ u)] :=
  ⟨by decide, chat_strip_fallback_unreachable "chat_alice".data (by decide)⟩

/-! ## Tray icon clicks (C7) -/

/-- C7 counterexample: clicking the tray icon does not give the main window
focus. From the unfocused state `w0` the click handler leaves `focused`
false — it only calls `show()` — whereas selecting the "open" menu entry
(which does call `set_focus()`) leaves the window focused. This refutes the
claim that the tray-click handler "reveals the main window and gives it
focus". -/
theorem tray_click_no_focus_counterexample :
    (on_tray_icon_event true w0 .click).focused = false ∧
    (on_tray_icon_event true w0 .click).visible = true ∧
    (on_menu_event true w0 "open".data).window.focused = true := by
  decide

/-- C7 amended: for every click on the tray icon, when the main window
exists the handler reveals it (makes it visible) and changes nothing else —
in particular it does not give the window focus. -/
theorem tray_click_shows_window (w : WindowState) :
    on_tray_icon_event true w .click = { w with visible := true } := rfl

/-! ## Initial menu vs empty rebuild (C10) -/

/-- C10: the initial tray menu built inline at startup is structurally
identical to the menu `update_tray_menu` installs for an empty contact
list: same entries, same ids, same labels, same order. -/
theorem initial_menu_matches_empty_rebuild :
    update_tray_menu okEnv [] = some (.ok (), [.setMenu initialTrayMenu]) := rfl

/-! ## Close-to-hide (C5) and exit discipline (C6) -/

/-- C5: every close request delivered to the main window is suppressed by
the installed handler — the default close/terminate action never runs, the
window's destroyed flag is untouched, and the window ends up hidden; this
holds after any number of earlier close requests, and a subsequent "open"
menu selection shows the window again without terminating the process. -/
theorem close_request_hides_never_terminates (w : WindowState) :
    (closeRequest w).2 = false ∧
    (closeRequest w).1.destroyed = w.destroyed ∧
    (closeRequest w).1.visible = false ∧
    (∀ n, (closeRequests n w).destroyed = w.destroyed) ∧
    (∀ n, (closeRequest (closeRequests n w)).2 = false) ∧
    (on_menu_event true (closeRequest w).1 "open".data).window.visible = true ∧
    (on_menu_event true (closeRequest w).1 "open".data).exitCode = none := by
  have hdes : ∀ v : WindowState, (closeRequest v).1.destroyed = v.destroyed := by
    intro v
    simp [closeRequest, on_window_event]
  have hiter : ∀ n (v : WindowState), (closeRequests n v).destroyed = v.destroyed := by
    intro n
    induction n with
    | zero => intro v; rfl
    | succ m ih => intro v; rw [closeRequests, ih, hdes]
  refine ⟨rfl, hdes w, rfl, fun n => hiter n w, fun n => rfl, ?_, ?_⟩
  · simp [on_menu_event, revealFocus]
  · simp [on_menu_event]

/-- C6: in the tray menu event router, the only selection that terminates
the process is "quit", which exits immediately with code 0; "open",
"new_contact" and every "chat_" entry never request an exit, and any
unrecognized id produces no exit, no event and no window change at all. -/
theorem menu_event_exit_discipline (wE : Bool) (w : WindowState) (id : Str) :
    ((on_menu_event wE w id).exitCode ≠ none ↔ id = "quit".data) ∧
    (on_menu_event wE w "quit".data).exitCode = some 0 ∧
    (id ≠ "open".data → id ≠ "quit".data → id ≠ "new_contact".data →
      startsWith "chat_".data id = false →
      on_menu_event wE w id = { exitCode := none, events := [], window := w }) := by
  have hquit : (on_menu_event wE w "quit".data).exitCode = some 0 := by
    unfold on_menu_event
    rw [if_neg (by decide), if_pos rfl]
  refine ⟨⟨?_, ?_⟩, hquit, ?_⟩
  · intro hne
    by_contra hq
    apply hne
    unfold on_menu_event
    split_ifs <;> rfl
  · intro hq
    subst hq
    rw [hquit]
    simp
  · intro h1 h2 h3 h4
    unfold on_menu_event
    rw [if_neg h1, if_neg h2, if_neg h3, if_neg (by simp [h4])]

/-- Witness for C6 at the unrecognized id "bogus" in state `w0`. -/
theorem menu_event_exit_discipline_witness :
    ("bogus".data ≠ "open".data ∧ "bogus".data ≠ "quit".data ∧
      "bogus".data ≠ "new_contact".data ∧
      startsWith "chat_".data "bogus".data = false) ∧
    on_menu_event true w0 "bogus".data =
      { exitCode := none, events := [], window := w0 } :=
  ⟨by decide, (menu_event_exit_discipline true w0 "bogus".data).2.2
    (by decide) (by decide) (by decide) (by decide)⟩

/-! ## Windows positioning (C8) -/

/-- C8 counterexample: the claimed formula fails for large sizes because the
`u32 as i32` casts and the `i32` subtraction wrap. For a monitor reporting
the maximal `u32` size 4294967295 in both dimensions and a 100 by 100
window, the code computes (-111, -151), not the claimed
(4294967295 - 100 - 10, 4294967295 - 100 - 50) = (4294967185, 4294967145). -/
theorem windows_position_wrap_counterexample :
    windowsPosition 4294967295 4294967295 100 100 = (-111, -151) ∧
    windowsPosition 4294967295 4294967295 100 100 ≠ (4294967185, 4294967145) ∧
    ((4294967295 : Int) - 100 - 10, (4294967295 : Int) - 100 - 50) =
      ((4294967185 : Int), (4294967145 : Int)) := by
  refine ⟨by decide, ?_, by decide⟩
  intro h
  have := congrArg Prod.fst h
  revert this
  decide

/-- C8 amended: on Windows the startup routine sets the physical position
to exactly (monitor_width - window_outer_width - 10, monitor_height -
window_outer_height - 50) for every `u32` monitor and window size for which
those two differences fit the signed 32-bit range (as they do for all real
screen geometries); outside that range the 32-bit casts wrap. -/
theorem windows_position_formula (monW monH winW winH : Nat)
    (_hW : monW < 2 ^ 32) (_hH : monH < 2 ^ 32)
    (_hw : winW < 2 ^ 32) (_hh : winH < 2 ^ 32)
    (hx1 : -(2 ^ 31) ≤ (monW : Int) - winW - 10)
    (hx2 : (monW : Int) - winW - 10 < 2 ^ 31)
    (hy1 : -(2 ^ 31) ≤ (monH : Int) - winH - 50)
    (hy2 : (monH : Int) - winH - 50 < 2 ^ 31) :
    windowsPosition monW monH winW winH =
      ((monW : Int) - winW - 10, (monH : Int) - winH - 50) := by
  unfold windowsPosition toI32 wrap32
  rw [Prod.mk.injEq]
  constructor
  · split_ifs <;> omega
  · split_ifs <;> omega

/-- Witness for C8 at a 1920 by 1080 monitor and a 400 by 600 window. -/
theorem windows_position_formula_witness :
    windowsPosition 1920 1080 400 600 = (1510, 430) :=
  windows_position_formula 1920 1080 400 600 (by decide) (by decide) (by decide)
    (by decide) (by decide) (by decide) (by decide) (by decide)

/-! ## Menu shape for successful rebuilds (C1) -/

/-- The contact entries carry one item per user, in input order, with the
prefixed action id and the computed label. -/
theorem contactEntries_spec (users : List Str) (contacts : List MenuEntry)
    (h : contactEntries users = some contacts) :
    contacts.length = users.length ∧
    ∀ i, i < users.length → ∃ label,
      chatLabel (users.getD i []) = some label ∧
      contacts.getD i .separator = .item ("chat_".data ++ users.getD i []) label := by
  induction users generalizing contacts with
  | nil =>
    simp only [contactEntries, Option.some.injEq] at h
    subst h
    exact ⟨rfl, fun i hi => absurd hi (by simp)⟩
  | cons u us ih =>
    unfold contactEntries at h
    cases hcl : chatLabel u with
    | none => rw [hcl] at h; simp at h
    | some label =>
      rw [hcl] at h
      cases hce : contactEntries us with
      | none => rw [hce] at h; simp at h
      | some es =>
        rw [hce] at h
        simp only [Option.some.injEq] at h
        subst h
        obtain ⟨hlen, hspec⟩ := ih es hce
        refine ⟨by simp [hlen], fun i hi => ?_⟩
        cases i with
        | zero => exact ⟨label, hcl, rfl⟩
        | succ j =>
          simpa using hspec j (by simpa using hi)

/-- Under the all-success oracle the contact loop appends exactly the
contact entries, advancing the append counter once per entry. -/
theorem appendUsers_ok (users : List Str) (contacts : List MenuEntry)
    (h : contactEntries users = some contacts) :
    ∀ acc k, appendUsers okEnv users acc k =
      some (.ok (acc ++ contacts, k + contacts.length)) := by
  induction users generalizing contacts with
  | nil =>
    intro acc k
    simp only [contactEntries, Option.some.injEq] at h
    subst h
    simp [appendUsers]
  | cons u us ih =>
    intro acc k
    unfold contactEntries at h
    cases hcl : chatLabel u with
    | none => rw [hcl] at h; simp at h
    | some label =>
      rw [hcl] at h
      cases hce : contactEntries us with
      | none => rw [hce] at h; simp at h
      | some es =>
        rw [hce] at h
        simp only [Option.some.injEq] at h
        subst h
        unfold appendUsers
        rw [hcl]
        show orFail none (orFail none _) = _
        rw [show ∀ k : Option (Except Str (List MenuEntry × Nat)), orFail none k = k
          from fun _ => rfl]
        rw [show ∀ k : Option (Except Str (List MenuEntry × Nat)), orFail none k = k
          from fun _ => rfl]
        rw [ih es hce]
        simp [List.append_assoc]
        omega

/-- Under the all-success oracle the construction phase produces exactly the
fixed frame with the contacts section in the middle. -/
theorem buildMenu_ok (users : List Str) (contacts : List MenuEntry)
    (h : contactEntries users = some contacts) :
    buildMenu okEnv users = some (.ok (menuShape users contacts)) := by
  cases users with
  | nil =>
    have hc : contacts = [] := by
      simpa [contactEntries] using h.symm
    subst hc
    rfl
  | cons u us =>
    show buildTail okEnv (u :: us) _ = _
    unfold buildTail
    show (match appendUsers okEnv (u :: us) _ 4 with
      | none => none
      | some (Except.error e) => some (Except.error e)
      | some (Except.ok (m, appIdx)) => finishMenu okEnv m 2 appIdx) = _
    rw [appendUsers_ok (u :: us) contacts h]
    unfold finishMenu
    simp [okEnv, orFail, menuShape]

/-- C1: for every contact list passed to `update_tray_menu` whose labels all
compute (the slice does not panic), the installed menu is, in this exact
order: Open, a separator, New Contact, then — only when the list is
non-empty — a separator followed by one entry per contact in input order,
then a separator and Quit: 3 fixed entries, n contact entries and the
appropriate separators; for the empty list it is exactly the 5-entry menu
Open / separator / New Contact / separator / Quit. -/
theorem update_tray_menu_menu_shape (users : List Str) (contacts : List MenuEntry)
    (h : contactEntries users = some contacts) :
    update_tray_menu okEnv users = some (.ok (), [.setMenu (menuShape users contacts)]) ∧
    contacts.length = users.length ∧
    (∀ i, i < users.length → ∃ label,
      chatLabel (users.getD i []) = some label ∧
      contacts.getD i .separator = .item ("chat_".data ++ users.getD i []) label) ∧
    (menuShape users contacts).length =
      5 + users.length + (if users.isEmpty then 0 else 1) ∧
    (users = [] → menuShape users contacts = initialTrayMenu ∧
      (menuShape users contacts).length = 5) := by
  obtain ⟨hlen, hspec⟩ := contactEntries_spec users contacts h
  refine ⟨?_, hlen, hspec, ?_, ?_⟩
  · show (match buildMenu okEnv users with
      | none => none
      | some (Except.error e) => some (Except.error e, [])
      | some (Except.ok m) => some (Except.ok (), [TrayEffect.setMenu m])) = _
    rw [buildMenu_ok users contacts h]
  · cases users with
    | nil => simp [menuShape]
    | cons u us =>
      simp only [menuShape, List.isEmpty_cons, if_neg Bool.false_ne_true,
        List.length_append, List.length_cons]
      simp [hlen]
      omega
  · intro hu
    subst hu
    have hc : contacts = [] := by
      simpa [contactEntries] using h.symm
    subst hc
    exact ⟨rfl, rfl⟩

/-- Witness for C1 at a two-element contact list with one short and one long
identifier. -/
theorem update_tray_menu_menu_shape_witness :
    contactEntries usersW = some contactsW ∧
    update_tray_menu okEnv usersW =
      some (.ok (), [.setMenu (menuShape usersW contactsW)]) :=
  ⟨by decide, (update_tray_menu_menu_shape usersW contactsW (by decide)).1⟩

/-! ## All-or-nothing error behaviour (C4) -/

/-- Elimination for one fallible step: an error out of `orFail` is either
the step's own failure or an error of the continuation. -/
theorem orFail_error {α : Type} {o : Option Str} {k : Option (Except Str α)} {e : Str}
    (h : orFail o k = some (.error e)) :
    o = some e ∨ (o = none ∧ k = some (.error e)) := by
  cases o with
  | none => exact .inr ⟨rfl, h⟩
  | some x =>
    left
    simp only [orFail, Option.some.injEq, Except.error.injEq] at h
    rw [h]

/-- Every error escaping the contact loop was supplied by the oracle. -/
theorem appendUsers_error (env : TrayEnv) (users : List Str) :
    ∀ acc k e, appendUsers env users acc k = some (.error e) → envError env e := by
  induction users with
  | nil =>
    intro acc k e h
    simp [appendUsers] at h
  | cons u us ih =>
    intro acc k e h
    unfold appendUsers at h
    cases hcl : chatLabel u with
    | none => rw [hcl] at h; simp at h
    | some label =>
      rw [hcl] at h
      rcases orFail_error h with h1 | ⟨-, h⟩
      · exact .inr (.inr (.inl ⟨_, h1⟩))
      rcases orFail_error h with h1 | ⟨-, h⟩
      · exact .inr (.inr (.inr (.inr (.inl ⟨_, h1⟩))))
      exact ih _ _ _ h

/-- Every error escaping the construction tail was supplied by the
oracle. -/
theorem finishMenu_error (env : TrayEnv) (menu : List MenuEntry) (sepIdx appIdx : Nat)
    (e : Str) (h : finishMenu env menu sepIdx appIdx = some (.error e)) :
    envError env e := by
  unfold finishMenu at h
  rcases orFail_error h with h1 | ⟨-, h⟩
  · exact .inr (.inr (.inr (.inl ⟨_, h1⟩)))
  rcases orFail_error h with h1 | ⟨-, h⟩
  · exact .inr (.inr (.inr (.inr (.inl ⟨_, h1⟩))))
  rcases orFail_error h with h1 | ⟨-, h⟩
  · exact .inr (.inr (.inl ⟨_, h1⟩))
  rcases orFail_error h with h1 | ⟨-, h⟩
  · exact .inr (.inr (.inr (.inr (.inl ⟨_, h1⟩))))
  simp at h

/-- Every error escaping the contacts section and tail was supplied by the
oracle. -/
theorem buildTail_error (env : TrayEnv) (users : List Str) (base : List MenuEntry)
    (e : Str) (h : buildTail env users base = some (.error e)) :
    envError env e := by
  cases users with
  | nil => exact finishMenu_error env base 1 3 e h
  | cons u us =>
    unfold buildTail at h
    rcases orFail_error h with h1 | ⟨-, h⟩
    · exact .inr (.inr (.inr (.inl ⟨_, h1⟩)))
    rcases orFail_error h with h1 | ⟨-, h⟩
    · exact .inr (.inr (.inr (.inr (.inl ⟨_, h1⟩))))
    cases hau : appendUsers env (u :: us) (base ++ [.separator]) 4 with
    | none => rw [hau] at h; simp at h
    | some r =>
      rw [hau] at h
      cases r with
      | error x =>
        simp only [Option.some.injEq, Except.error.injEq] at h
        exact appendUsers_error env (u :: us) _ _ _ (h ▸ hau)
      | ok p => exact finishMenu_error env p.1 2 p.2 e (by rw [← h])

/-- Every error escaping the construction phase was supplied by the
oracle. -/
theorem buildMenu_error (env : TrayEnv) (users : List Str) (e : Str)
    (h : buildMenu env users = some (.error e)) : envError env e := by
  unfold buildMenu at h
  rcases orFail_error h with h1 | ⟨-, h⟩
  · exact .inr (.inl h1)
  rcases orFail_error h with h1 | ⟨-, h⟩
  · exact .inr (.inr (.inl ⟨_, h1⟩))
  rcases orFail_error h with h1 | ⟨-, h⟩
  · exact .inr (.inr (.inr (.inr (.inl ⟨_, h1⟩))))
  rcases orFail_error h with h1 | ⟨-, h⟩
  · exact .inr (.inr (.inr (.inl ⟨_, h1⟩)))
  rcases orFail_error h with h1 | ⟨-, h⟩
  · exact .inr (.inr (.inr (.inr (.inl ⟨_, h1⟩))))
  rcases orFail_error h with h1 | ⟨-, h⟩
  · exact .inr (.inr (.inl ⟨_, h1⟩))
  rcases orFail_error h with h1 | ⟨-, h⟩
  · exact .inr (.inr (.inr (.inr (.inl ⟨_, h1⟩))))
  exact buildTail_error env users _ e h

/-- C4: if any step of the rebuild fails, `update_tray_menu` returns an
error — the tray-lookup message or the failing step's message — and applies
no effect to the tray, so the previously installed menu is unchanged; the
new menu is assigned exactly when every construction step succeeded, as the
single final `set_menu` effect. -/
theorem update_tray_menu_all_or_nothing (env : TrayEnv) (users : List Str) :
    (∀ e effs, update_tray_menu env users = some (.error e, effs) →
      effs = [] ∧ (∀ tray, applyEffects effs tray = tray) ∧ envError env e) ∧
    (∀ effs, update_tray_menu env users = some (.ok (), effs) →
      ∃ m, effs = [.setMenu m]) := by
  constructor
  · intro e effs h
    unfold update_tray_menu at h
    by_cases htray : env.trayFound
    · rw [if_pos htray] at h
      cases hb : buildMenu env users with
      | none => rw [hb] at h; simp at h
      | some r =>
        rw [hb] at h
        cases r with
        | error x =>
          simp only [Option.some.injEq, Prod.mk.injEq, Except.error.injEq] at h
          refine ⟨h.2.symm, fun tray => by rw [← h.2]; rfl, ?_⟩
          exact buildMenu_error env users e (h.1 ▸ hb)
        | ok m =>
          cases hs : env.setMenuErr with
          | none => rw [hs] at h; simp at h
          | some x =>
            rw [hs] at h
            simp only [Option.some.injEq, Prod.mk.injEq, Except.error.injEq] at h
            refine ⟨h.2.symm, fun tray => by rw [← h.2]; rfl, ?_⟩
            exact .inr (.inr (.inr (.inr (.inr (h.1 ▸ hs)))))
    · rw [if_neg htray] at h
      simp only [Option.some.injEq, Prod.mk.injEq, Except.error.injEq] at h
      exact ⟨h.2.symm, fun tray => by rw [← h.2]; rfl, .inl h.1.symm⟩
  · intro effs h
    unfold update_tray_menu at h
    by_cases htray : env.trayFound
    · rw [if_pos htray] at h
      cases hb : buildMenu env users with
      | none => rw [hb] at h; simp at h
      | some r =>
        rw [hb] at h
        cases r with
        | error x => simp at h
        | ok m =>
          cases hs : env.setMenuErr with
          | some x => rw [hs] at h; simp at h
          | none =>
            rw [hs] at h
            simp only [Option.some.injEq, Prod.mk.injEq] at h
            exact ⟨m, h.2.symm⟩
    · rw [if_neg htray] at h
      simp at h

/-- Witness for C4: the oracle failing at the Open item makes the rebuild
of a one-element list return exactly that error with no tray effect. -/
theorem update_tray_menu_all_or_nothing_witness :
    update_tray_menu failEnv ["alice".data] = some (.error "boom".data, []) ∧
    (([] : List TrayEffect) = [] ∧ (∀ tray, applyEffects [] tray = tray) ∧
      envError failEnv "boom".data) :=
  ⟨rfl, (update_tray_menu_all_or_nothing failEnv ["alice".data]).1
    "boom".data [] rfl⟩
